import Mathlib

/-!
Verification of the data-jockey table-scripting interpreter: data model,
Context construction, statement execution and grammar actions, embedded
from the Python source.
-/

namespace DJ

/-- A pandas column label: either a string name or an integer label
(integer labels arise from `:N` COLUMN_INDEX syntax and headerless CSV). -/
inductive ColId where
  | str (s : String)
  | idx (n : Nat)
deriving DecidableEq, Repr

/-- A cell value: the null sentinel (`None`), numeric NaN, integers,
floats (modelled as rationals), booleans, strings and list values. -/
inductive Value where
  | null
  | nan
  | int (n : Int)
  | float (q : Rat)
  | bool (b : Bool)
  | str (s : String)
  | list (vs : List Value)

/-- A DataFrame with a default range index: an ordered header of column
labels and a list of rows, each row one value per column. -/
structure Frame where
  header : List ColId
  rows : List (List Value)

def emptyFrame : Frame := ⟨[], []⟩

/-! ## Python dict model

`context.frames` and `context.sources` are Python dicts.  We model a dict
as an association list in insertion order: assignment to an existing key
overwrites in place, assignment to a new key appends. -/

def dictGet {α : Type} (d : List (String × α)) (k : String) : Option α :=
  (d.find? (fun kv => kv.1 = k)).map (·.2)

def dictSet {α : Type} (d : List (String × α)) (k : String) (v : α) :
    List (String × α) :=
  match d with
  | [] => [(k, v)]
  | kv :: rest =>
    if kv.1 = k then (k, v) :: rest else kv :: dictSet rest k v

def dictDel {α : Type} (d : List (String × α)) (k : String) :
    List (String × α) :=
  d.filter (fun kv => ¬ kv.1 = k)

abbrev FrameMap := List (String × Frame)

/-- A registered data source (from `source.py`): the model records the
connection string the `SQLSource` was opened with. -/
structure Source where
  url : String

abbrev SourceMap := List (String × Source)

/-! ## Heap

Python dicts are heap objects passed by reference: `dict(m)` allocates a
fresh dict holding a shallow copy of `m`, while plain assignment would
alias.  Context construction (`context.py` line 26-27) uses `dict(...)`,
so we model the heap of dict objects explicitly: a reference is an index
into an arena, and allocation appends. -/

structure Heap where
  frames : List FrameMap
  sources : List SourceMap
  pools : Nat

def Heap.empty : Heap := ⟨[], [], 0⟩

def Heap.getFrames (h : Heap) (ref : Nat) : FrameMap :=
  (h.frames.get? ref).getD []

def Heap.getSources (h : Heap) (ref : Nat) : SourceMap :=
  (h.sources.get? ref).getD []

/-- Allocate a fresh frames dict holding `m`; returns the new heap and
the reference. -/
def Heap.allocFrames (h : Heap) (m : FrameMap) : Heap × Nat :=
  ({ h with frames := h.frames ++ [m] }, h.frames.length)

def Heap.allocSources (h : Heap) (m : SourceMap) : Heap × Nat :=
  ({ h with sources := h.sources ++ [m] }, h.sources.length)

/-- Mutate the frames dict at `ref` in place. -/
def Heap.setFrame (h : Heap) (ref : Nat) (k : String) (v : Frame) : Heap :=
  { h with frames := h.frames.set ref (dictSet (h.getFrames ref) k v) }

def Heap.setSource (h : Heap) (ref : Nat) (k : String) (v : Source) : Heap :=
  { h with sources := h.sources.set ref (dictSet (h.getSources ref) k v) }

/-- Python `d.update(u)`: fold the overrides into `d` left to right. -/
def dictUpdate {α : Type} (d u : List (String × α)) : List (String × α) :=
  u.foldl (fun acc kv => dictSet acc kv.1 kv.2) d

/-! ## pandas column assignment

`df[col] = series`: into a truly empty DataFrame the series is adopted
whole; otherwise the series is aligned to the frame's range index
(truncated, or padded with NaN), overwriting the column in place when the
label exists and appending it at the end otherwise. -/

def alignTo (n : Nat) (vs : List Value) : List Value :=
  (List.range n).map (fun i => (vs.get? i).getD Value.nan)

/-- First index whose element satisfies the predicate. -/
def findIdxO {α : Type} (p : α → Bool) : List α → Option Nat
  | [] => none
  | a :: l => if p a then some 0 else (findIdxO p l).map (· + 1)

def Frame.setCol (f : Frame) (c : ColId) (vs : List Value) : Frame :=
  if f.rows.isEmpty ∧ f.header.isEmpty then
    ⟨[c], vs.map (fun v => [v])⟩
  else
    let aligned := alignTo f.rows.length vs
    match findIdxO (fun x => x = c) f.header with
    | some j => ⟨f.header, List.zipWith (fun r v => r.set j v) f.rows aligned⟩
    | none => ⟨f.header ++ [c], List.zipWith (fun r v => r ++ [v]) f.rows aligned⟩

/-! ## Context (`context.py`)

`Context.__init__` copies the parent's frames and sources dicts
(`dict(...)` allocates), merges the environment, overwrites the `ENV`
and `it` entries of its own copy, and narrows the three permission
flags by conjunction with the parent's. -/

structure Context where
  framesRef : Nat
  sourcesRef : Nat
  env : List (String × String)
  allow_read : Bool
  allow_connect : Bool
  allow_run : Bool
  poolRef : Nat

/-- The `pd.DataFrame([self.env.values()], columns=self.env.keys())`
single-row environment frame. -/
def mkEnvFrame (env : List (String × String)) : Frame :=
  ⟨env.map (fun kv => ColId.str kv.1), [env.map (fun kv => Value.str kv.2)]⟩

/-- Embedding of `Context.__init__`.  Returns the heap after the
construction together with the new context. -/
def Context.init (h : Heap) (parent : Option Context)
    (env : List (String × String)) (argv : List Value)
    (allow_read allow_connect allow_run : Bool) : Heap × Context :=
  let parentFrames := match parent with
    | some p => h.getFrames p.framesRef
    | none => []
  let parentSources := match parent with
    | some p => h.getSources p.sourcesRef
    | none => []
  let (h1, fref) := h.allocFrames parentFrames
  let (h2, sref) := h1.allocSources parentSources
  let env0 := match parent with
    | some p => p.env
    | none => []
  let env1 := dictUpdate env0 env
  let envFrame := (mkEnvFrame env1).setCol (ColId.str "ARGV") [Value.list argv]
  let h3 := h2.setFrame fref "ENV" envFrame
  let h4 := h3.setFrame fref "it" emptyFrame
  let poolAlloc := match parent with
    | some p => (h4, p.poolRef)
    | none => ({ h4 with pools := h4.pools + 1 }, h4.pools)
  (poolAlloc.1,
   { framesRef := fref
     sourcesRef := sref
     env := env1
     allow_read := allow_read && (match parent with
       | some p => p.allow_read
       | none => true)
     allow_connect := allow_connect && (match parent with
       | some p => p.allow_connect
       | none => true)
     allow_run := allow_run && (match parent with
       | some p => p.allow_run
       | none => true)
     poolRef := poolAlloc.2 })

/-- Frame lookup through a context, as `context.frames[name]` reads the
dict object the context references. -/
def Context.getFrame (h : Heap) (c : Context) (name : String) : Option Frame :=
  dictGet (h.getFrames c.framesRef) name

def Context.getSource (h : Heap) (c : Context) (name : String) : Option Source :=
  dictGet (h.getSources c.sourcesRef) name

/-- Binding `context.frames[name] = df`. -/
def Context.bindFrame (h : Heap) (c : Context) (name : String) (df : Frame) : Heap :=
  h.setFrame c.framesRef name df

/-- The `register` method: `self.sources[name] = source`. -/
def Context.register (h : Heap) (c : Context) (name : String) (s : Source) : Heap :=
  h.setSource c.sourcesRef name s

/-- Construction parameters of one child context in a chain of recursive
RUN invocations: environment overrides, argv, and the three flag values
passed to the constructor. -/
structure ChildSpec where
  env : List (String × String)
  argv : List Value
  allow_read : Bool
  allow_connect : Bool
  allow_run : Bool

/-- A chain of child contexts, each constructed with the previous one as
parent (as recursive RUN does). -/
def runChildChain (h : Heap) (c : Context) : List ChildSpec → Heap × Context
  | [] => (h, c)
  | s :: rest =>
    let hc := Context.init h (some c) s.env s.argv s.allow_read s.allow_connect s.allow_run
    runChildChain hc.1 hc.2 rest

/-- A concrete top-level context constructed with RUN disabled, used to
instantiate hypothesis-bearing theorems at a concrete input. -/
def rootNoRun : Heap × Context := Context.init Heap.empty none [] [] true true false

/-! ## Python exceptions -/

inductive PyErr where
  | keyError (k : String)
  | typeError (msg : String)
  | assertionError (msg : String)
  | indexError
  | runtimeError (msg : String)
deriving DecidableEq, Repr

/-! ## Term evaluation results

`evaluate(term, table)` returns either a scalar or a pandas Series; a
Series carries an optional name used by SELECT for the column label. -/

inductive EvalResult where
  | scalar (v : Value)
  | series (name : Option ColId) (vs : List Value)

def isSeries : EvalResult → Bool
  | .series _ _ => true
  | .scalar _ => false

/-! ## Scalar functions (`functions.py`) -/

/-- Collaborator model of Python `math.isnan`: true on NaN, false on
every number (bool included, as bool subclasses int), and a TypeError on
any non-numeric argument such as a string, None or a list. -/
def math_isnan : Value → Except PyErr Bool
  | .nan => .ok true
  | .int _ => .ok false
  | .float _ => .ok false
  | .bool _ => .ok false
  | _ => .error (.typeError "must be real number")

/-- Elementwise `pd.Series.isna`: None and NaN are missing, everything
else (strings included) is not; never raises. -/
def cellIsNa : Value → Bool
  | .null => true
  | .nan => true
  | _ => false

/-- Embedding of `is_na` from `functions.py`: on a Series, `x.isna()`;
on a scalar, `x is None or math.isnan(x)` (short-circuit, so None never
reaches `math.isnan`, but any other non-number raises its TypeError). -/
def is_na : EvalResult → Except PyErr EvalResult
  | .series n vs => .ok (.series n (vs.map (fun v => Value.bool (cellIsNa v))))
  | .scalar x =>
    match x with
    | .null => .ok (.scalar (.bool true))
    | v => (math_isnan v).map (fun b => .scalar (.bool b))

/-- Embedding of `is_not_na` from `functions.py`: on a Series,
`x.notna()`; on a scalar, `not (x is None or math.isnan(x))`. -/
def is_not_na : EvalResult → Except PyErr EvalResult
  | .series n vs => .ok (.series n (vs.map (fun v => Value.bool (! cellIsNa v))))
  | .scalar x =>
    match x with
    | .null => .ok (.scalar (.bool false))
    | v => (math_isnan v).map (fun b => .scalar (.bool (! b)))

def charsPrefix : List Char → List Char → Bool
  | [], _ => true
  | _ :: _, [] => false
  | a :: as, b :: bs => a = b && charsPrefix as bs

def charsContains (pat : List Char) : List Char → Bool
  | [] => charsPrefix pat []
  | c :: rest => charsPrefix pat (c :: rest) || charsContains pat rest

/-- Collaborator model of `re.search(pat, s, re.IGNORECASE)` as used by
`pd.Series.str.contains(pat, case=False)`, restricted to literal
patterns (no regex metacharacters), where a regex search is exactly a
case-insensitive substring test. -/
def regexSearchLower (pat s : String) : Bool :=
  charsContains (pat.data.map Char.toLower) (s.data.map Char.toLower)

/-- Elementwise `str.contains`: string cells give a boolean, non-string
cells give NaN. -/
def cellContains (pat : String) : Value → Value
  | .str s => .bool (regexSearchLower pat s)
  | _ => .nan

/-- Embedding of `is_in` from `functions.py`: the right operand is made
a one-element Series when it is a scalar, and `b.str.contains(a,
case=False)` tests each element for (case-insensitive) containment of
the left operand; a non-string left operand is a TypeError. -/
def is_in (a b : EvalResult) : Except PyErr EvalResult :=
  let bs := match b with
    | .series n vs => (n, vs)
    | .scalar x => (none, [x])
  match a with
  | .scalar (.str pat) => .ok (.series bs.1 (bs.2.map (cellContains pat)))
  | _ => .error (.typeError "pattern must be a string")

/-! ## Terms (`term.py`)

The expression AST.  The parser stores the operator callable in the
node; the embedding uses one constructor per operator the claims reach
(`p_term_isna`, `p_term_isnotna`, `p_term_in`). -/

inductive Term where
  | literal (v : Value)
  | column (c : ColId)
  | isNaTerm (t : Term)
  | isNotNaTerm (t : Term)
  | inTerm (l r : Term)

def colIdKey : ColId → String
  | .str s => s
  | .idx n => toString n

def Frame.colIdx (f : Frame) (c : ColId) : Option Nat :=
  findIdxO (fun x => x = c) f.header

def Frame.colValues (f : Frame) (j : Nat) : List Value :=
  f.rows.map (fun r => (r.get? j).getD Value.nan)

/-- `df[name]`: the named column as a Series carrying its label as the
Series name; a missing label is a KeyError. -/
def Frame.col (f : Frame) (c : ColId) : Except PyErr EvalResult :=
  match f.colIdx c with
  | some j => .ok (.series (some c) (f.colValues j))
  | none => .error (.keyError (colIdKey c))

/-- Embedding of `Term.evaluate(df)`. -/
def Term.evaluate (df : Frame) : Term → Except PyErr EvalResult
  | .literal v => .ok (.scalar v)
  | .column c => df.col c
  | .isNaTerm t => do is_na (← t.evaluate df)
  | .isNotNaTerm t => do is_not_na (← t.evaluate df)
  | .inTerm l r => do is_in (← l.evaluate df) (← r.evaluate df)

/-- An aliased SELECT expression (`Expression` in `term.py`); the
`aliasName` field embeds the Python `alias` attribute (`alias` is a
reserved word in this development's host language). -/
structure Expression where
  term : Term
  aliasName : Option String

/-! ## Frame assembly (`utils.py`, `create_frame`) -/

/-- Column selection `df[[c1, c2, ...]]` by label, in the given order. -/
def Frame.selectCols (f : Frame) (cs : List ColId) : Frame :=
  let idxs := cs.map (fun c => f.colIdx c)
  ⟨cs, f.rows.map (fun r => idxs.map (fun j? =>
    match j? with
    | some j => (r.get? j).getD Value.nan
    | none => Value.nan))⟩

/-- The cell values a (column, value) pair contributes: a Series is
taken as-is, a scalar is repeated `n` times (`pd.Series([value] * n)`). -/
def prepVals (n : Nat) : EvalResult → List Value
  | .series _ vs => vs
  | .scalar x => List.replicate n x

/-- Embedding of `create_frame`: stable-sorts the (column, value) list
so Series come before scalars (`sorted` with a boolean key keeps the
relative order inside each class, which is the two filters below),
computes `n` from the first sorted entry, assigns the columns one by one
into an initially empty DataFrame (scalars repeated `n` times), and
finally re-selects the columns in declared order. -/
def create_frame (data : List (ColId × EvalResult)) : Frame :=
  if data.isEmpty then emptyFrame
  else
    let cols := data.filter (fun cv => isSeries cv.2)
      ++ data.filter (fun cv => ! isSeries cv.2)
    let n := match cols.head? with
      | some (_, .series _ vs) => vs.length
      | _ => 1
    let result := cols.foldl (fun (fr : Frame) cv =>
      fr.setCol cv.1 (prepVals n cv.2)) emptyFrame
    result.selectCols (data.map (fun cv => cv.1))

/-! ## Statements (`statement.py`) -/

/-- A SELECT list entry: either the literal `*` or an aliased
expression (`p_exprlist` in `parser.py` mixes the MUL token into the
expression list). -/
inductive SelExpr where
  | star
  | expr (e : Expression)

/-- One modelled statement per language verb the claims reach.  The
`reverse` constructor embeds the `Reverse` dataclass of `statement.py`
(row-order inversion), which the grammar never produces. -/
inductive Statement where
  | connect (alias_ url kind : String)
  | explode (table : String) (column : ColId)
  | help (command : Option String)
  | print (table : String) (term : Term)
  | put (table : String)
  | reverse (table : String)
  | run (table : String) (args : List Term)
  | select (table : String) (expressions : List SelExpr)
  | sort (table : String) (sortBy : Option (List (ColId × Bool)))
  | transpose (table : String)

/-- The accumulation loop of `Select.execute`: `*` expands to every
column of the source frame; any other expression evaluates, is named by
the Series name when it has one and otherwise by an underscore followed
by the current length of the accumulated list, and an `AS` alias
overrides either. -/
def selectCollect (df : Frame) (cols : List (ColId × EvalResult)) :
    List SelExpr → Except PyErr (List (ColId × EvalResult))
  | [] => .ok cols
  | .star :: rest =>
    selectCollect df
      (cols ++ df.header.enum.map (fun jc =>
        (jc.2, EvalResult.series (some jc.2) (df.colValues jc.1)))) rest
  | .expr e :: rest => do
    let value ← e.term.evaluate df
    let dflt := ColId.str ("_" ++ toString cols.length)
    let column := match value with
      | .series (some nm) _ => nm
      | _ => dflt
    let name := match e.aliasName with
      | some a => ColId.str a
      | none => column
    selectCollect df (cols ++ [(name, value)]) rest

/-- `df.transpose()`: the range index becomes the (integer) column
labels and the old columns become the rows. -/
def Frame.transpose (f : Frame) : Frame :=
  ⟨(List.range f.rows.length).map ColId.idx,
   (List.range f.header.length).map (fun j => f.rows.map (fun r =>
     (r.get? j).getD Value.nan))⟩

/-- `df.explode(column, ignore_index=True)`: each list cell becomes one
row per element (an empty list becomes a NaN row), non-list cells keep
their row; a missing column label is a KeyError. -/
def Frame.explodeCol (f : Frame) (c : ColId) : Except PyErr Frame :=
  match f.colIdx c with
  | none => .error (.keyError (colIdKey c))
  | some j => .ok ⟨f.header, f.rows.flatMap (fun r =>
      match r.get? j with
      | some (.list []) => [r.set j Value.nan]
      | some (.list vs) => vs.map (fun v => r.set j v)
      | _ => [r])⟩

def valueRat? : Value → Option Rat
  | .int n => some n
  | .float q => some q
  | .bool b => some (if b then 1 else 0)
  | _ => none

/-- Collaborator model of the elementwise comparison `df.sort_values`
performs, for homogeneous numeric or string key columns. -/
def valueLt (a b : Value) : Bool :=
  match valueRat? a, valueRat? b with
  | some x, some y => x < y
  | _, _ =>
    match a, b with
    | .str s, .str t => s < t
    | _, _ => false

/-- Lexicographic row comparison over the sort keys, honouring each
key's ascending flag. -/
def rowLtBy (f : Frame) (keys : List (Nat × Bool)) (r s : List Value) : Bool :=
  match keys with
  | [] => false
  | (j, asc) :: rest =>
    let a := (r.get? j).getD Value.nan
    let b := (s.get? j).getD Value.nan
    let lt := if asc then valueLt a b else valueLt b a
    let gt := if asc then valueLt b a else valueLt a b
    if lt then true else if gt then false else rowLtBy f rest r s

/-- Stable insertion: a row goes after every earlier row it is not
strictly below. -/
def insertRow (lt : List Value → List Value → Bool) (x : List Value) :
    List (List Value) → List (List Value)
  | [] => [x]
  | y :: ys => if lt x y then x :: y :: ys else y :: insertRow lt x ys

/-- Collaborator model of `df.sort_values(by=columns,
ascending=ascending)` as a stable sort by the key columns. -/
def Frame.sortValues (f : Frame) (keys : List (ColId × Bool)) :
    Except PyErr Frame := do
  let idxKeys ← keys.mapM (fun cb =>
    match f.colIdx cb.1 with
    | some j => Except.ok (j, cb.2)
    | none => Except.error (PyErr.keyError (colIdKey cb.1)))
  .ok ⟨f.header, f.rows.foldl (fun acc r => insertRow (rowLtBy f idxKeys) r acc) []⟩

/-- The RUN sub-script invocation (`Run.run` plus the result handling):
loading the script named by the first argument and executing it are
external effects, abstracted as an oracle from the evaluated arguments
to a result and a new heap. -/
def SubRunner : Type :=
  Heap → Context → List EvalResult → Except PyErr (Option Frame) × Heap

/-- Embedding of each statement's `execute(context)`.  The result pairs
the optional produced frame with the heap after execution. -/
def Statement.execute (sub : SubRunner) (h : Heap) (ctx : Context) :
    Statement → Except PyErr (Option Frame) × Heap
  | .connect alias_ url kind =>
    if ctx.allow_connect = false then
      (.error (.assertionError "CONNECT permission disabled"), h)
    else if kind = "SQL" then
      (.ok none, Context.register h ctx alias_ ⟨url⟩)
    else
      (.ok none, h)
  | .explode table column =>
    match Context.getFrame h ctx table with
    | none => (.error (.keyError table), h)
    | some df =>
      match df.explodeCol column with
      | .ok df2 => (.ok (some df2), h)
      | .error e => (.error e, h)
  | .help _ => (.ok none, h)
  | .print table t =>
    match Context.getFrame h ctx table with
    | none => (.error (.keyError table), h)
    | some df =>
      match t.evaluate df with
      | .ok _ => (.ok none, h)
      | .error e => (.error e, h)
  | .put table =>
    match Context.getFrame h ctx table with
    | none => (.error (.keyError table), h)
    | some df => (.ok (some df), h)
  | .reverse table =>
    match Context.getFrame h ctx table with
    | none => (.error (.keyError table), h)
    | some df => (.ok (some ⟨df.header, df.rows.reverse⟩), h)
  | .run table args =>
    if ctx.allow_run = false then
      (.error (.assertionError "RUN permission disabled"), h)
    else
      match Context.getFrame h ctx table with
      | none => (.error (.keyError table), h)
      | some df =>
        match args.mapM (fun a => a.evaluate df) with
        | .error e => (.error e, h)
        | .ok argVals => sub h ctx argVals
  | .select table expressions =>
    match Context.getFrame h ctx table with
    | none => (.error (.keyError table), h)
    | some df =>
      match selectCollect df [] expressions with
      | .ok data => (.ok (some (create_frame data)), h)
      | .error e => (.error e, h)
  | .sort table sortBy =>
    match Context.getFrame h ctx table with
    | none => (.error (.keyError table), h)
    | some df =>
      match sortBy with
      | none => (.error (.typeError "object of type NoneType has no len()"), h)
      | some byList =>
        let keys := if byList.isEmpty then
            match df.header.head? with
            | some c => Except.ok [(c, true)]
            | none => Except.error PyErr.indexError
          else Except.ok byList
        match keys with
        | .error e => (.error e, h)
        | .ok ks =>
          match df.sortValues ks with
          | .ok df2 => (.ok (some df2), h)
          | .error e => (.error e, h)
  | .transpose table =>
    match Context.getFrame h ctx table with
    | none => (.error (.keyError table), h)
    | some df => (.ok (some df.transpose), h)

/-! ## Grammar actions (`parser.py`)

Each `p_<verb>` function embeds the corresponding yacc action.  A ply
action receives the matched production as a slice `p`; `p[n]` is a
plain list index into the production's symbols and raises IndexError
when `n` is out of range. -/

/-- A symbol of a matched production: the left-hand side placeholder, a
keyword token, an identifier, or a column id. -/
inductive PSlot where
  | lhs
  | kw (s : String)
  | ident (s : String)
  | columnid (c : ColId)

/-- Access `p[n]` expecting an identifier value. -/
def prodIdent (slice : List PSlot) (n : Nat) : Except PyErr String :=
  match slice.get? n with
  | some (.ident s) => .ok s
  | some _ => .error (.typeError "not an identifier slot")
  | none => .error .indexError

/-- Access `p[n]` expecting a column id value. -/
def prodColumnid (slice : List PSlot) (n : Nat) : Except PyErr ColId :=
  match slice.get? n with
  | some (.columnid c) => .ok c
  | some _ => .error (.typeError "not a columnid slot")
  | none => .error .indexError

/-- Action `p_explode` for `explode : EXPLODE columnid FROM ident`: the
slice holds five symbols (indices 0 to 4) and the action builds
`Explode(table=p[4], column=p[42])`, reading slot 42. -/
def p_explode (c : ColId) (t : String) : Except PyErr Statement := do
  let slice : List PSlot := [.lhs, .kw "EXPLODE", .columnid c, .kw "FROM", .ident t]
  let table ← prodIdent slice 4
  let column ← prodColumnid slice 42
  .ok (.explode table column)

/-- Action `p_explode_it` for `explode : EXPLODE columnid`, which builds
`Explode(table='it', column=p[2])`. -/
def p_explode_it (c : ColId) : Except PyErr Statement := do
  let slice : List PSlot := [.lhs, .kw "EXPLODE", .columnid c]
  let column ← prodColumnid slice 2
  .ok (.explode "it" column)

/-- Action `p_sort` for `sort : SORT ident`: no `orderby` symbol is in
the slice, so the `clause` helper returns its default `None`. -/
def p_sort (t : String) : Statement := .sort t none

/-- Action `p_sort` for `sort : SORT ident orderby`. -/
def p_sort_by (t : String) (ob : List (ColId × Bool)) : Statement :=
  .sort t (some ob)

/-- Action `p_sort_it` for `sort : SORT orderby`. -/
def p_sort_it (ob : List (ColId × Bool)) : Statement := .sort "it" (some ob)

/-- Action `p_reverse` for `reverse : REVERSE ident`: builds
`Transpose(table=p[2])`. -/
def p_reverse (t : String) : Statement := .transpose t

/-- Action `p_reverse_it` for `reverse : REVERSE`. -/
def p_reverse_it : Statement := .transpose "it"

/-- Action `p_transpose` for `transpose : TRANSPOSE ident`. -/
def p_transpose (t : String) : Statement := .transpose t

/-- Action `p_transpose_it` for `transpose : TRANSPOSE`. -/
def p_transpose_it : Statement := .transpose "it"

/-! ## Script driver (`script.py`) -/

/-- One iteration of the driver loop in `Script.run_async`: execute the
statement; when the result is not `None`, set `context.it` to it and
then bind the `INTO` alias, when present, to `context.it`. -/
def runCommand (sub : SubRunner) (h : Heap) (ctx : Context) (stmt : Statement)
    (into : Option String) : Except PyErr (Option Frame) × Heap :=
  match Statement.execute sub h ctx stmt with
  | (.error e, h2) => (.error e, h2)
  | (.ok none, h2) => (.ok none, h2)
  | (.ok (some df), h2) =>
    let h3 := Context.bindFrame h2 ctx "it" df
    match into with
    | none => (.ok (some df), h3)
    | some name =>
      match Context.getFrame h3 ctx "it" with
      | some cur => (.ok (some df), Context.bindFrame h3 ctx name cur)
      | none => (.error (.keyError "it"), h3)

/-! ## String templates and the lexer's TEMPLATE rule (`lexer.py`)

Collaborator model of `string.Template` with its default `$` delimiter:
`$$` is an escaped dollar, `$name` and a braced dollar-name substitute
the named mapping entry (`substitute` raises KeyError when the key is
missing), and any other `$` is an invalid placeholder (ValueError). -/

def pyIdentStart (c : Char) : Bool := c.isAlpha || c = '_'

def pyIdentChar (c : Char) : Bool := c.isAlphanum || c = '_'

inductive TemplErr where
  | missingKey (k : String)
  | invalidPlaceholder
deriving DecidableEq, Repr

def substChars (env : List (String × String)) : List Char → Except TemplErr (List Char)
  | [] => .ok []
  | c :: cs =>
    if c = '$' then
      match cs with
      | '$' :: rest => (substChars env rest).map (fun r => '$' :: r)
      | '{' :: rest =>
        let ident := rest.takeWhile pyIdentChar
        if ident.isEmpty || !(pyIdentStart (ident.headD ' ')) then
          .error .invalidPlaceholder
        else
          match hafter : rest.dropWhile pyIdentChar with
          | '}' :: rest2 =>
            match dictGet env (String.mk ident) with
            | some v => (substChars env rest2).map (fun r => v.data ++ r)
            | none => .error (.missingKey (String.mk ident))
          | _ => .error .invalidPlaceholder
      | d :: rest =>
        if pyIdentStart d then
          let ident := d :: rest.takeWhile pyIdentChar
          match dictGet env (String.mk ident) with
          | some v =>
            (substChars env (rest.dropWhile pyIdentChar)).map (fun r => v.data ++ r)
          | none => .error (.missingKey (String.mk ident))
        else .error .invalidPlaceholder
      | [] => .error .invalidPlaceholder
    else (substChars env cs).map (fun r => c :: r)
termination_by cs => cs.length
decreasing_by
  all_goals simp_wf
  all_goals try omega
  · have hlen := List.Sublist.length_le (List.dropWhile_sublist pyIdentChar (l := rest))
    rw [hafter] at hlen
    simp at hlen
    omega
  · have hlen := List.Sublist.length_le (List.dropWhile_sublist pyIdentChar (l := rest))
    omega

/-- `Template(body).substitute(env)`. -/
def templateSubstitute (body : String) (env : List (String × String)) :
    Except TemplErr String :=
  (substChars env body.data).map (fun cs => String.mk cs)

inductive Token where
  | STRING (s : String)
  | TEMPLATE (body : String)
deriving DecidableEq, Repr

/-- Embedding of `t_TEMPLATE`: the quoted body becomes a Template and
`substitute()` with no mapping is attempted; success downgrades the
token to STRING holding the substituted value, a KeyError leaves it a
TEMPLATE, and a ValueError from an invalid placeholder is not caught. -/
def t_TEMPLATE (body : String) : Except TemplErr Token :=
  match templateSubstitute body [] with
  | .ok s => .ok (.STRING s)
  | .error (.missingKey _) => .ok (.TEMPLATE body)
  | .error e => .error e

/-! ## Derived observations and concrete fixtures used by the theorems -/

/-- The values of a frame's column through its label. -/
def Frame.getColVals (f : Frame) (c : ColId) : Option (List Value) :=
  (f.colIdx c).map f.colValues

/-- Every row of a frame has one value per header entry. -/
def WfFrame (f : Frame) : Prop :=
  ∀ (i : Nat) (r : List Value), f.rows[i]? = some r → r.length = f.header.length

/-- The broadcast length `create_frame` uses: the length of the first
Series among the declared values, or one when there is none. -/
def broadcastLen (data : List (ColId × EvalResult)) : Nat :=
  match data.find? (fun cv => isSeries cv.2) with
  | some (_, .series _ vs) => vs.length
  | _ => 1

/-- A scalar is missing exactly when it is the null sentinel or NaN. -/
def missingScalar : Value → Bool
  | .null => true
  | .nan => true
  | _ => false

/-- A trivial sub-script runner for instantiating `Statement.execute`. -/
def noSub : SubRunner := fun h _ _ => (.ok none, h)

/-- A fresh top-level context with all permissions granted. -/
def rootCtx : Heap × Context := Context.init Heap.empty none [] [] true true true

def frameT : Frame :=
  ⟨[ColId.str "a", ColId.str "b"],
   [[Value.int 1, Value.int 2], [Value.int 3, Value.int 4]]⟩

/-- The root context with a two-row table bound under "t". -/
def fixture : Heap × Context :=
  (Context.bindFrame rootCtx.1 rootCtx.2 "t" frameT, rootCtx.2)

/-- A child context of `fixture` as `Run.run` constructs one. -/
def c3Child : Heap × Context :=
  Context.init fixture.1 (some fixture.2) [] [Value.str "sub.pql"] true true true

def xFrame : Frame := ⟨[ColId.str "x"], [[Value.int 7]]⟩

/-- Heap after the child binds a new frame "x" (as INTO would). -/
def c3AfterBind : Heap := Context.bindFrame c3Child.1 c3Child.2 "x" xFrame

/-- Heap after the child additionally registers a source "db". -/
def c3AfterRegister : Heap :=
  Context.register c3AfterBind c3Child.2 "db" ⟨"sqlite://demo"⟩

def nameFrame : Frame :=
  ⟨[ColId.str "name"],
   [[Value.str "Jeff"], [Value.str "Isabel"], [Value.str "Bob"]]⟩

/-- The root context with the three-row `nameFrame` bound as "people". -/
def c6Fix : Heap × Context :=
  (Context.bindFrame rootCtx.1 rootCtx.2 "people" nameFrame, rootCtx.2)

/-- The statement `SELECT 'x' IN 'x', name, 5 FROM people`. -/
def c6Select : Statement :=
  .select "people"
    [ .expr ⟨.inTerm (.literal (.str "x")) (.literal (.str "x")), none⟩
    , .expr ⟨.column (.str "name"), none⟩
    , .expr ⟨.literal (.int 5), none⟩ ]

/-- What executing `c6Select` produces: a single-row frame, although the
column `name` of the source has three rows. -/
def c6Result : Frame :=
  ⟨[ColId.str "_0", ColId.str "name", ColId.str "_2"],
   [[Value.bool true, Value.str "Jeff", Value.int 5]]⟩

/-! # Theorems -/

theorem chain_read_false : ∀ (specs : List ChildSpec) (h : Heap) (p : Context),
    p.allow_read = false → (runChildChain h p specs).2.allow_read = false
  | [], _, _, hp => hp
  | _ :: rest, _, _, hp =>
    chain_read_false rest _ _ (by simp [Context.init, hp])

theorem chain_connect_false : ∀ (specs : List ChildSpec) (h : Heap) (p : Context),
    p.allow_connect = false → (runChildChain h p specs).2.allow_connect = false
  | [], _, _, hp => hp
  | _ :: rest, _, _, hp =>
    chain_connect_false rest _ _ (by simp [Context.init, hp])

theorem chain_run_false : ∀ (specs : List ChildSpec) (h : Heap) (p : Context),
    p.allow_run = false → (runChildChain h p specs).2.allow_run = false
  | [], _, _, hp => hp
  | _ :: rest, _, _, hp =>
    chain_run_false rest _ _ (by simp [Context.init, hp])

/-- C1: every child context constructed with a parent has each permission
flag equal to the conjunction of the flag passed to the constructor with
the parent's corresponding flag, and along every chain of child contexts
(as created by recursive RUN) a descendant's flag is never true when the
ancestor's flag is false. -/
theorem c1_child_flags_conjunction_and_narrowing
    (h : Heap) (p : Context) (env : List (String × String)) (argv : List Value)
    (ar ac aru : Bool) :
    ((Context.init h (some p) env argv ar ac aru).2.allow_read = (ar && p.allow_read)
      ∧ (Context.init h (some p) env argv ar ac aru).2.allow_connect = (ac && p.allow_connect)
      ∧ (Context.init h (some p) env argv ar ac aru).2.allow_run = (aru && p.allow_run))
    ∧ (∀ specs : List ChildSpec,
        (p.allow_read = false → (runChildChain h p specs).2.allow_read = false)
        ∧ (p.allow_connect = false → (runChildChain h p specs).2.allow_connect = false)
        ∧ (p.allow_run = false → (runChildChain h p specs).2.allow_run = false)) :=
  ⟨⟨rfl, rfl, rfl⟩, fun specs =>
    ⟨chain_read_false specs h p, chain_connect_false specs h p, chain_run_false specs h p⟩⟩

/-- Witness for C1 at a concrete parent with RUN disabled and a
one-element chain. -/
theorem c1_child_flags_conjunction_and_narrowing_witness :
    (Context.init rootNoRun.1 (some rootNoRun.2) [] [] true true true).2.allow_run
      = (true && rootNoRun.2.allow_run)
    ∧ (runChildChain rootNoRun.1 rootNoRun.2 [⟨[], [], true, true, true⟩]).2.allow_run
      = false :=
  ⟨(c1_child_flags_conjunction_and_narrowing rootNoRun.1 rootNoRun.2 [] [] true true
      true).1.2.2,
   ((c1_child_flags_conjunction_and_narrowing rootNoRun.1 rootNoRun.2 [] [] true true
      true).2 [⟨[], [], true, true, true⟩]).2.2 rfl⟩

/-- C2: with `allow_run` disabled, executing RUN asserts the flag before
the frame lookup and the argument evaluations, fails with the permission
message, and returns the heap untouched, so the frames map (with "it"),
the sources map and the permission flags are exactly as before. -/
theorem c2_run_denied_is_error_and_no_effect
    (sub : SubRunner) (h : Heap) (ctx : Context) (table : String) (args : List Term)
    (hrun : ctx.allow_run = false) :
    Statement.execute sub h ctx (.run table args)
      = (.error (.assertionError "RUN permission disabled"), h) := by
  simp [Statement.execute, hrun]

/-- Witness for C2: a context with RUN disabled, a RUN whose argument
would not even evaluate (it names a missing column). -/
theorem c2_run_denied_is_error_and_no_effect_witness :
    rootNoRun.2.allow_run = false
    ∧ Statement.execute noSub rootNoRun.1 rootNoRun.2
        (.run "it" [Term.column (ColId.str "missing")])
      = (.error (.assertionError "RUN permission disabled"), rootNoRun.1) :=
  ⟨rfl, c2_run_denied_is_error_and_no_effect noSub rootNoRun.1 rootNoRun.2 "it"
    [Term.column (ColId.str "missing")] rfl⟩

/-- C4: the Sort statement parsed from `SORT t` (no BY clause) carries
`by=None`; `Sort.execute` then calls `len(None)`, raising TypeError
rather than sorting by the first column — while the explicit BY form of
the same table does sort. -/
theorem c4_sort_without_by_raises_type_error :
    Statement.execute noSub fixture.1 fixture.2 (p_sort "t")
      = (.error (.typeError "object of type NoneType has no len()"), fixture.1)
    ∧ Statement.execute noSub fixture.1 fixture.2 (p_sort_by "t" [(ColId.str "a", true)])
      = (.ok (some frameT), fixture.1) :=
  ⟨rfl, rfl⟩

/-- C5: REVERSE and TRANSPOSE parse to the identical Transpose statement
(explicit-table and implicit-it forms alike), so executing REVERSE
performs the axis swap on the targeted table. -/
theorem c5_reverse_parses_and_executes_as_transpose :
    (∀ t : String, p_reverse t = p_transpose t)
    ∧ p_reverse_it = p_transpose_it
    ∧ ∀ (sub : SubRunner) (h : Heap) (ctx : Context) (t : String) (df : Frame),
        Context.getFrame h ctx t = some df →
        Statement.execute sub h ctx (p_reverse t) = (.ok (some df.transpose), h)
        ∧ Statement.execute sub h ctx (p_reverse t)
          = Statement.execute sub h ctx (p_transpose t) := by
  refine ⟨fun _ => rfl, rfl, fun sub h ctx t df hdf => ?_⟩
  constructor
  · simp [p_reverse, Statement.execute, hdf]
  · rfl

/-- Witness for C5 on the concrete fixture table. -/
theorem c5_reverse_parses_and_executes_as_transpose_witness :
    Statement.execute noSub fixture.1 fixture.2 (p_reverse "t")
      = (.ok (some frameT.transpose), fixture.1) :=
  ((c5_reverse_parses_and_executes_as_transpose.2.2 noSub fixture.1 fixture.2 "t"
    frameT rfl).1)

/-- C8 counterexample: `IS NA` on a string scalar does not return a
boolean — `math.isnan` rejects the string with a TypeError, and
`IS NOT NA` fails the same way. -/
theorem c8_is_na_string_raises :
    Term.evaluate emptyFrame (.isNaTerm (.literal (.str "Bob")))
      = .error (.typeError "must be real number")
    ∧ Term.evaluate emptyFrame (.isNotNaTerm (.literal (.str "Bob")))
      = .error (.typeError "must be real number") :=
  ⟨rfl, rfl⟩

/-- C8 (amended): on the null sentinel, NaN, integers, floats and
booleans, `IS NA` returns a boolean without raising — true exactly for
null or NaN — and `IS NOT NA` returns its negation; a string scalar
instead raises a TypeError. -/
theorem c8_is_na_numeric_scalars (df : Frame) (x : Value)
    (hx : x = .null ∨ x = .nan ∨ (∃ n, x = .int n) ∨ (∃ q, x = .float q)
      ∨ (∃ b, x = .bool b)) :
    Term.evaluate df (.isNaTerm (.literal x)) = .ok (.scalar (.bool (missingScalar x)))
    ∧ Term.evaluate df (.isNotNaTerm (.literal x))
      = .ok (.scalar (.bool (! missingScalar x))) := by
  rcases hx with h | h | ⟨n, h⟩ | ⟨q, h⟩ | ⟨b, h⟩ <;> subst h <;> exact ⟨rfl, rfl⟩

/-- Witness for C8 at the NaN scalar. -/
theorem c8_is_na_numeric_scalars_witness :
    Term.evaluate emptyFrame (.isNaTerm (.literal Value.nan))
      = .ok (.scalar (.bool (missingScalar Value.nan)))
    ∧ missingScalar Value.nan = true :=
  ⟨(c8_is_na_numeric_scalars emptyFrame Value.nan (Or.inr (Or.inl rfl))).1, rfl⟩

/-- C9: the grammar action for `EXPLODE columnid FROM ident` reads
production slot 42 — an IndexError at parse time — instead of building
`Explode(table, column)`; the implicit-it form builds the statement. -/
theorem c9_explode_from_raises_index_error :
    p_explode (ColId.str "genes") "people" = .error .indexError
    ∧ p_explode_it (ColId.str "genes") = .ok (.explode "it" (ColId.str "genes")) :=
  ⟨rfl, rfl⟩

theorem substChars_no_dollar (env : List (String × String)) :
    ∀ cs : List Char, '$' ∉ cs → substChars env cs = .ok cs := by
  intro cs
  induction cs with
  | nil => intro _; rw [substChars.eq_def]
  | cons c cs ih =>
    intro h
    have hc : ¬ c = '$' := fun hcc => h (by simp [hcc])
    have hcs : '$' ∉ cs := fun hm => h (List.mem_cons_of_mem c hm)
    rw [substChars.eq_def]
    simp only [if_neg hc]
    rw [ih hcs]
    rfl

/-- C7: a quoted literal whose body has no dollar sign lexes to a STRING
token whose value is the body itself, and treating the same body as a
TEMPLATE substitutes to that very body under every environment. -/
theorem c7_placeholder_free_string_equals_template (body : String)
    (h : '$' ∉ body.data) :
    t_TEMPLATE body = .ok (.STRING body)
    ∧ ∀ env, templateSubstitute body env = .ok body := by
  have hs : ∀ env, templateSubstitute body env = .ok body := by
    intro env
    unfold templateSubstitute
    rw [substChars_no_dollar env body.data h]
    show Except.ok (String.mk body.data) = Except.ok body
    cases body
    rfl
  refine ⟨?_, hs⟩
  unfold t_TEMPLATE
  rw [hs []]

/-- Witness for C7 on a concrete placeholder-free body and a non-empty
environment. -/
theorem c7_placeholder_free_string_equals_template_witness :
    t_TEMPLATE "hello" = .ok (.STRING "hello")
    ∧ templateSubstitute "hello" [("name", "Bob")] = .ok "hello" :=
  ⟨(c7_placeholder_free_string_equals_template "hello" (by decide)).1,
   (c7_placeholder_free_string_equals_template "hello" (by decide)).2 [("name", "Bob")]⟩

theorem dictGet_dictSet_self {α : Type} (d : List (String × α)) (k : String) (v : α) :
    dictGet (dictSet d k v) k = some v := by
  induction d with
  | nil => simp [dictGet, dictSet, List.find?_cons]
  | cons kv rest ih =>
    by_cases hk : kv.1 = k
    · simp [dictSet, hk, dictGet, List.find?_cons]
    · simp only [dictSet, if_neg hk]
      simp only [dictGet, List.find?_cons] at ih ⊢
      simp [hk, ih]

theorem dictGet_dictSet_ne {α : Type} (d : List (String × α)) (k k' : String) (v : α)
    (h : k' ≠ k) : dictGet (dictSet d k v) k' = dictGet d k' := by
  have hkk : ¬ k = k' := fun hh => h (Eq.symm hh)
  induction d with
  | nil => simp [dictGet, dictSet, List.find?_cons, hkk]
  | cons kv rest ih =>
    by_cases hk : kv.1 = k
    · have hkv : ¬ kv.1 = k' := fun hh => hkk ((Eq.symm hk).trans hh)
      simp only [dictSet, if_pos hk]
      simp only [dictGet, List.find?_cons]
      simp [hkk, hkv]
    · simp only [dictSet, if_neg hk]
      simp only [dictGet, List.find?_cons] at ih ⊢
      by_cases hk' : kv.1 = k'
      · simp [hk']
      · simp [hk', ih]

theorem getFrames_allocFrames_lt (h : Heap) (m : FrameMap) (r : Nat)
    (hr : r < h.frames.length) :
    (h.allocFrames m).1.getFrames r = h.getFrames r := by
  simp [Heap.allocFrames, Heap.getFrames, List.getElem?_append_left hr]

theorem getFrames_allocFrames_new (h : Heap) (m : FrameMap) :
    (h.allocFrames m).1.getFrames h.frames.length = m := by
  simp [Heap.allocFrames, Heap.getFrames, List.getElem?_concat_length]

theorem getSources_allocSources_lt (h : Heap) (m : SourceMap) (r : Nat)
    (hr : r < h.sources.length) :
    (h.allocSources m).1.getSources r = h.getSources r := by
  simp [Heap.allocSources, Heap.getSources, List.getElem?_append_left hr]

theorem getSources_allocSources_new (h : Heap) (m : SourceMap) :
    (h.allocSources m).1.getSources h.sources.length = m := by
  simp [Heap.allocSources, Heap.getSources, List.getElem?_concat_length]

theorem getFrames_setFrame_self (h : Heap) (r : Nat) (k : String) (v : Frame)
    (hr : r < h.frames.length) :
    (h.setFrame r k v).getFrames r = dictSet (h.getFrames r) k v := by
  simp [Heap.setFrame, Heap.getFrames, List.getElem?_set_self hr]

theorem getFrames_setFrame_ne (h : Heap) (r r' : Nat) (k : String) (v : Frame)
    (hne : r' ≠ r) :
    (h.setFrame r k v).getFrames r' = h.getFrames r' := by
  simp [Heap.setFrame, Heap.getFrames, List.getElem?_set_ne (Ne.symm hne)]

theorem getSources_setSource_ne (h : Heap) (r r' : Nat) (k : String) (v : Source)
    (hne : r' ≠ r) :
    (h.setSource r k v).getSources r' = h.getSources r' := by
  simp [Heap.setSource, Heap.getSources, List.getElem?_set_ne (Ne.symm hne)]

theorem getFrames_allocSources (h : Heap) (m : SourceMap) (r : Nat) :
    (h.allocSources m).1.getFrames r = h.getFrames r := rfl

theorem getSources_setFrame (h : Heap) (r : Nat) (k : String) (v : Frame) (r' : Nat) :
    (h.setFrame r k v).getSources r' = h.getSources r' := rfl

theorem getSources_allocFrames (h : Heap) (m : FrameMap) (r : Nat) :
    (h.allocFrames m).1.getSources r = h.getSources r := rfl

theorem init_parent_framesRef (h : Heap) (p : Context) (env : List (String × String))
    (argv : List Value) (a b c : Bool) :
    (Context.init h (some p) env argv a b c).2.framesRef = h.frames.length := rfl

theorem init_parent_sourcesRef (h : Heap) (p : Context) (env : List (String × String))
    (argv : List Value) (a b c : Bool) :
    (Context.init h (some p) env argv a b c).2.sourcesRef = h.sources.length := rfl

/-- The child's frames dict right after construction: the parent's dict
copied, with `ENV` and `it` overwritten. -/
theorem init_child_frames_dict (h : Heap) (p : Context) (env : List (String × String))
    (argv : List Value) (a b c : Bool) :
    (Context.init h (some p) env argv a b c).1.getFrames h.frames.length
      = dictSet (dictSet (h.getFrames p.framesRef) "ENV"
          ((mkEnvFrame (dictUpdate p.env env)).setCol (ColId.str "ARGV")
            [Value.list argv])) "it" emptyFrame := by
  have h0 : (Context.init h (some p) env argv a b c).1
      = Heap.setFrame (Heap.setFrame (((h.allocFrames
          (h.getFrames p.framesRef)).1).allocSources
            (h.getSources p.sourcesRef)).1 h.frames.length "ENV"
          ((mkEnvFrame (dictUpdate p.env env)).setCol (ColId.str "ARGV")
            [Value.list argv])) h.frames.length "it" emptyFrame := rfl
  have hl1 : (((h.allocFrames (h.getFrames p.framesRef)).1).allocSources
      (h.getSources p.sourcesRef)).1.frames.length = h.frames.length + 1 := by
    simp [Heap.allocFrames, Heap.allocSources]
  have hl2 : (Heap.setFrame (((h.allocFrames (h.getFrames p.framesRef)).1).allocSources
      (h.getSources p.sourcesRef)).1 h.frames.length "ENV"
        ((mkEnvFrame (dictUpdate p.env env)).setCol (ColId.str "ARGV")
          [Value.list argv])).frames.length = h.frames.length + 1 := by
    simp [Heap.setFrame, hl1]
  rw [h0]
  rw [getFrames_setFrame_self _ _ _ _ (by omega)]
  rw [getFrames_setFrame_self _ _ _ _ (by omega)]
  rw [getFrames_allocSources]
  rw [getFrames_allocFrames_new]

/-- The construction does not disturb the parent's frames dict. -/
theorem init_parent_frames_view (h : Heap) (p : Context) (env : List (String × String))
    (argv : List Value) (a b c : Bool) (hf : p.framesRef < h.frames.length) :
    (Context.init h (some p) env argv a b c).1.getFrames p.framesRef
      = h.getFrames p.framesRef := by
  have hne : p.framesRef ≠ h.frames.length := Nat.ne_of_lt hf
  have h0 : (Context.init h (some p) env argv a b c).1
      = Heap.setFrame (Heap.setFrame (((h.allocFrames
          (h.getFrames p.framesRef)).1).allocSources
            (h.getSources p.sourcesRef)).1 h.frames.length "ENV"
          ((mkEnvFrame (dictUpdate p.env env)).setCol (ColId.str "ARGV")
            [Value.list argv])) h.frames.length "it" emptyFrame := rfl
  rw [h0]
  rw [getFrames_setFrame_ne _ _ _ _ _ hne, getFrames_setFrame_ne _ _ _ _ _ hne]
  rw [getFrames_allocSources]
  exact getFrames_allocFrames_lt h _ p.framesRef hf

/-- The child's sources dict right after construction is the parent's
dict copied. -/
theorem init_child_sources_dict (h : Heap) (p : Context) (env : List (String × String))
    (argv : List Value) (a b c : Bool) :
    (Context.init h (some p) env argv a b c).1.getSources h.sources.length
      = h.getSources p.sourcesRef := by
  have h0 : (Context.init h (some p) env argv a b c).1
      = Heap.setFrame (Heap.setFrame (((h.allocFrames
          (h.getFrames p.framesRef)).1).allocSources
            (h.getSources p.sourcesRef)).1 h.frames.length "ENV"
          ((mkEnvFrame (dictUpdate p.env env)).setCol (ColId.str "ARGV")
            [Value.list argv])) h.frames.length "it" emptyFrame := rfl
  rw [h0, getSources_setFrame, getSources_setFrame]
  exact getSources_allocSources_new _ _

/-- The construction does not disturb the parent's sources dict. -/
theorem init_parent_sources_view (h : Heap) (p : Context)
    (env : List (String × String)) (argv : List Value) (a b c : Bool)
    (hs : p.sourcesRef < h.sources.length) :
    (Context.init h (some p) env argv a b c).1.getSources p.sourcesRef
      = h.getSources p.sourcesRef := by
  have h0 : (Context.init h (some p) env argv a b c).1
      = Heap.setFrame (Heap.setFrame (((h.allocFrames
          (h.getFrames p.framesRef)).1).allocSources
            (h.getSources p.sourcesRef)).1 h.frames.length "ENV"
          ((mkEnvFrame (dictUpdate p.env env)).setCol (ColId.str "ARGV")
            [Value.list argv])) h.frames.length "it" emptyFrame := rfl
  rw [h0, getSources_setFrame, getSources_setFrame]
  have hstep := getSources_allocSources_lt ((h.allocFrames
    (h.getFrames p.framesRef)).1) (h.getSources p.sourcesRef) p.sourcesRef
    (by exact hs)
  rw [hstep]
  rfl

/-- C3 counterexample: after a child context of the fixture parent (built
exactly as `Run.run` builds one) binds the new frame "x" and registers
the source "db", the child sees both but the parent sees neither — the
constructor copied the dicts instead of sharing them. -/
theorem c3_counterexample_child_writes_invisible :
    Context.getFrame c3AfterRegister c3Child.2 "x" = some xFrame
    ∧ Context.getFrame c3AfterRegister fixture.2 "x" = none
    ∧ Context.getSource c3AfterRegister c3Child.2 "db" = some ⟨"sqlite://demo"⟩
    ∧ Context.getSource c3AfterRegister fixture.2 "db" = none :=
  ⟨rfl, rfl, rfl, rfl⟩

/-- C3 (amended): a child context receives shallow copies of the
parent's frames and sources maps at construction (equal entries, apart
from the child's own fresh `ENV` and `it`), and frame bindings or source
registrations made through the child afterwards are not visible in the
parent's maps. -/
theorem c3_child_copies_and_isolation (h : Heap) (p : Context)
    (env : List (String × String)) (argv : List Value) (a b c : Bool)
    (hc : Heap × Context)
    (hf : p.framesRef < h.frames.length) (hs : p.sourcesRef < h.sources.length)
    (hinit : Context.init h (some p) env argv a b c = hc) :
    (∀ k, k ≠ "ENV" → k ≠ "it" →
        Context.getFrame hc.1 hc.2 k = Context.getFrame h p k)
    ∧ (∀ k, Context.getSource hc.1 hc.2 k = Context.getSource h p k)
    ∧ (∀ k, Context.getFrame hc.1 p k = Context.getFrame h p k)
    ∧ (∀ k, Context.getSource hc.1 p k = Context.getSource h p k)
    ∧ (∀ k n df, Context.getFrame (Context.bindFrame hc.1 hc.2 n df) p k
        = Context.getFrame hc.1 p k)
    ∧ (∀ k n s, Context.getSource (Context.register hc.1 hc.2 n s) p k
        = Context.getSource hc.1 p k) := by
  subst hinit
  have hnef : p.framesRef ≠ h.frames.length := Nat.ne_of_lt hf
  have hnes : p.sourcesRef ≠ h.sources.length := Nat.ne_of_lt hs
  refine ⟨?_, ?_, ?_, ?_, ?_, ?_⟩
  · intro k hkENV hkIT
    simp only [Context.getFrame]
    rw [init_parent_framesRef, init_child_frames_dict]
    rw [dictGet_dictSet_ne _ _ _ _ hkIT, dictGet_dictSet_ne _ _ _ _ hkENV]
  · intro k
    simp only [Context.getSource]
    rw [init_parent_sourcesRef, init_child_sources_dict]
  · intro k
    simp only [Context.getFrame]
    rw [init_parent_frames_view h p env argv a b c hf]
  · intro k
    simp only [Context.getSource]
    rw [init_parent_sources_view h p env argv a b c hs]
  · intro k n df
    simp only [Context.getFrame, Context.bindFrame]
    rw [init_parent_framesRef]
    rw [getFrames_setFrame_ne _ _ _ _ _ hnef]
  · intro k n s
    simp only [Context.getSource, Context.register]
    rw [init_parent_sourcesRef]
    rw [getSources_setSource_ne _ _ _ _ _ hnes]

theorem setFrame_frames_length (h : Heap) (r : Nat) (k : String) (v : Frame) :
    (h.setFrame r k v).frames.length = h.frames.length := by
  simp [Heap.setFrame]

theorem bind_lookup_self (h2 : Heap) (ctx : Context) (k : String) (df : Frame)
    (hlt : ctx.framesRef < h2.frames.length) :
    Context.getFrame (Context.bindFrame h2 ctx k df) ctx k = some df := by
  simp only [Context.getFrame, Context.bindFrame]
  rw [getFrames_setFrame_self _ _ _ _ hlt, dictGet_dictSet_self]

/-- Witness for the amended C3 at the concrete fixture parent/child. -/
theorem c3_child_copies_and_isolation_witness :
    Context.getFrame (Context.bindFrame c3Child.1 c3Child.2 "x" xFrame) fixture.2 "x"
      = Context.getFrame c3Child.1 fixture.2 "x"
    ∧ Context.getFrame c3Child.1 c3Child.2 "t" = Context.getFrame fixture.1 fixture.2 "t" :=
  ⟨(c3_child_copies_and_isolation fixture.1 fixture.2 [] [Value.str "sub.pql"]
      true true true c3Child (by decide) (by decide) rfl).2.2.2.2.1 "x" "x" xFrame,
   (c3_child_copies_and_isolation fixture.1 fixture.2 [] [Value.str "sub.pql"]
      true true true c3Child (by decide) (by decide) rfl).1 "t" (by decide) (by decide)⟩

/-- C10: the driver binds neither the pronoun "it" nor the INTO alias
when a statement's execution returns no table; when a table is returned,
"it" and the INTO alias are both bound to that same table.  Print,
Connect (which only registers a source) and Help are statements whose
execution returns no table. -/
theorem c10_driver_updates_it_and_into_only_on_result
    (sub : SubRunner) (h : Heap) (ctx : Context) (stmt : Statement)
    (into : Option String) :
    (∀ h2, Statement.execute sub h ctx stmt = (.ok none, h2) →
        runCommand sub h ctx stmt into = (.ok none, h2))
    ∧ (∀ h2 df, Statement.execute sub h ctx stmt = (.ok (some df), h2) →
        ctx.framesRef < h2.frames.length →
        Context.getFrame (runCommand sub h ctx stmt into).2 ctx "it" = some df
        ∧ (∀ name, into = some name →
            Context.getFrame (runCommand sub h ctx stmt into).2 ctx name = some df))
    ∧ (∀ table t df v, Context.getFrame h ctx table = some df →
        Term.evaluate df t = .ok v →
        Statement.execute sub h ctx (.print table t) = (.ok none, h))
    ∧ (∀ alias_ url, ctx.allow_connect = true →
        Statement.execute sub h ctx (.connect alias_ url "SQL")
          = (.ok none, Context.register h ctx alias_ ⟨url⟩))
    ∧ (∀ cmd, Statement.execute sub h ctx (.help cmd) = (.ok none, h)) := by
  refine ⟨?_, ?_, ?_, ?_, ?_⟩
  · intro h2 hex
    simp [runCommand, hex]
  · intro h2 df hex hlt
    have hit : Context.getFrame (Context.bindFrame h2 ctx "it" df) ctx "it"
        = some df := bind_lookup_self h2 ctx "it" df hlt
    have hlt3 : ctx.framesRef < (h2.setFrame ctx.framesRef "it" df).frames.length := by
      rw [setFrame_frames_length]
      exact hlt
    cases into with
    | none =>
      refine ⟨?_, ?_⟩
      · have hrc : (runCommand sub h ctx stmt none).2
            = Context.bindFrame h2 ctx "it" df := by
          simp [runCommand, hex]
        rw [hrc]
        exact hit
      · intro name hnn
        cases hnn
    | some name =>
      have hrc : (runCommand sub h ctx stmt (some name)).2
          = Context.bindFrame (Context.bindFrame h2 ctx "it" df) ctx name df := by
        simp [runCommand, hex, hit]
      refine ⟨?_, ?_⟩
      · rw [hrc]
        by_cases hn : name = "it"
        · subst hn
          exact bind_lookup_self _ ctx "it" df hlt3
        · have hne : "it" ≠ name := fun hh => hn (Eq.symm hh)
          simp only [Context.getFrame, Context.bindFrame]
          rw [getFrames_setFrame_self _ _ _ _ hlt3, dictGet_dictSet_ne _ _ _ _ hne]
          exact hit
      · intro name2 heq
        cases heq
        rw [hrc]
        exact bind_lookup_self _ ctx name df hlt3
  · intro table t df v hdf hev
    simp [Statement.execute, hdf, hev]
  · intro alias_ url hconn
    simp [Statement.execute, hconn]
  · intro cmd
    rfl

/-- Witness for C10 on the fixture: PUT returns a table, so both "it"
and the INTO alias end up bound to it; HELP returns none, so the driver
leaves the heap exactly as execution left it. -/
theorem c10_driver_updates_it_and_into_only_on_result_witness :
    Context.getFrame (runCommand noSub fixture.1 fixture.2 (.put "t") (some "y")).2
      fixture.2 "it" = some frameT
    ∧ Context.getFrame (runCommand noSub fixture.1 fixture.2 (.put "t") (some "y")).2
      fixture.2 "y" = some frameT
    ∧ runCommand noSub fixture.1 fixture.2 (.help none) (some "y")
      = (.ok none, fixture.1) :=
  ⟨((c10_driver_updates_it_and_into_only_on_result noSub fixture.1 fixture.2 (.put "t")
      (some "y")).2.1 fixture.1 frameT rfl (by decide)).1,
   ((c10_driver_updates_it_and_into_only_on_result noSub fixture.1 fixture.2 (.put "t")
      (some "y")).2.1 fixture.1 frameT rfl (by decide)).2 "y" rfl,
   (c10_driver_updates_it_and_into_only_on_result noSub fixture.1 fixture.2 (.help none)
      (some "y")).1 fixture.1
     ((c10_driver_updates_it_and_into_only_on_result noSub fixture.1 fixture.2
        (.help none) (some "y")).2.2.2.2 none)⟩

theorem findIdxO_lt {α : Type} (p : α → Bool) :
    ∀ (l : List α) (j : Nat), findIdxO p l = some j → j < l.length := by
  intro l
  induction l with
  | nil => intro j hj; simp [findIdxO] at hj
  | cons a l ih =>
    intro j hj
    simp only [findIdxO] at hj
    by_cases hp : p a
    · rw [if_pos hp] at hj
      cases hj
      simp
    · rw [if_neg hp] at hj
      cases hfi : findIdxO p l with
      | none => rw [hfi] at hj; simp at hj
      | some j2 =>
        rw [hfi] at hj
        simp only [Option.map_some'] at hj
        cases hj
        have := ih j2 hfi
        simp
        omega

theorem findIdxO_get {α : Type} (p : α → Bool) :
    ∀ (l : List α) (j : Nat), findIdxO p l = some j →
      ∃ a, l.get? j = some a ∧ p a = true := by
  intro l
  induction l with
  | nil => intro j hj; simp [findIdxO] at hj
  | cons a l ih =>
    intro j hj
    simp only [findIdxO] at hj
    by_cases hp : p a
    · rw [if_pos hp] at hj
      cases hj
      exact ⟨a, rfl, hp⟩
    · rw [if_neg hp] at hj
      cases hfi : findIdxO p l with
      | none => rw [hfi] at hj; simp at hj
      | some j2 =>
        rw [hfi] at hj
        simp only [Option.map_some'] at hj
        cases hj
        exact ih j2 hfi

theorem findIdxO_append_sing {α : Type} (p : α → Bool) (c : α) :
    ∀ l : List α, findIdxO p (l ++ [c])
      = match findIdxO p l with
        | some j => some j
        | none => if p c then some l.length else none := by
  intro l
  induction l with
  | nil => by_cases hp : p c <;> simp [findIdxO, hp]
  | cons a l ih =>
    by_cases hp : p a
    · simp [findIdxO, hp]
    · have hstep : findIdxO p (a :: (l ++ [c]))
          = (findIdxO p (l ++ [c])).map (· + 1) := by
        simp [findIdxO, hp]
      rw [List.cons_append, hstep, ih]
      cases hfi : findIdxO p l with
      | some j => simp [findIdxO, hp, hfi]
      | none =>
        by_cases hpc : p c
        · simp [findIdxO, hp, hfi, hpc]
        · simp [findIdxO, hp, hfi, hpc]

theorem alignTo_length (n : Nat) (vs : List Value) : (alignTo n vs).length = n := by
  simp [alignTo]

theorem alignTo_get? (n : Nat) (vs : List Value) (i : Nat) (hi : i < n) :
    (alignTo n vs).get? i = some ((vs.get? i).getD Value.nan) := by
  simp [alignTo, List.getElem?_range hi]

theorem alignTo_eq_self (vs : List Value) : alignTo vs.length vs = vs := by
  apply List.ext_get?
  intro i
  by_cases hi : i < vs.length
  · rw [alignTo_get? _ _ _ hi]
    rw [List.get?_eq_getElem?, List.getElem?_eq_getElem hi]
    rfl
  · have h1 : vs.length ≤ i := Nat.le_of_not_lt hi
    rw [List.get?_eq_none.mpr (by rw [alignTo_length]; exact h1)]
    rw [List.get?_eq_none.mpr h1]

theorem alignTo_getElem? (n : Nat) (vs : List Value) (i : Nat) (hi : i < n) :
    (alignTo n vs)[i]? = some ((vs.get? i).getD Value.nan) := by
  rw [← List.get?_eq_getElem?]
  exact alignTo_get? n vs i hi

theorem setCol_guard_false (f : Frame) (hne : f.header ≠ []) :
    ¬(f.rows.isEmpty = true ∧ f.header.isEmpty = true) := by
  intro hg
  exact hne (List.isEmpty_iff.mp hg.2)

theorem setCol_rows_length (f : Frame) (c : ColId) (vs : List Value)
    (hne : f.header ≠ []) :
    (f.setCol c vs).rows.length = f.rows.length := by
  unfold Frame.setCol
  rw [if_neg (setCol_guard_false f hne)]
  cases hfi : findIdxO (fun x => x = c) f.header <;>
    simp [List.length_zipWith, alignTo_length]

theorem setCol_header (f : Frame) (c : ColId) (vs : List Value)
    (hne : f.header ≠ []) :
    (f.setCol c vs).header
      = match findIdxO (fun x => x = c) f.header with
        | some _ => f.header
        | none => f.header ++ [c] := by
  unfold Frame.setCol
  rw [if_neg (setCol_guard_false f hne)]
  cases hfi : findIdxO (fun x => x = c) f.header <;> simp

theorem setCol_header_ne_nil (f : Frame) (c : ColId) (vs : List Value)
    (hne : f.header ≠ []) :
    (f.setCol c vs).header ≠ [] := by
  rw [setCol_header f c vs hne]
  cases hfi : findIdxO (fun x => x = c) f.header <;> simp [hne]

theorem setCol_wf (f : Frame) (c : ColId) (vs : List Value)
    (hne : f.header ≠ []) (hwf : WfFrame f) :
    WfFrame (f.setCol c vs) := by
  intro i r' hr'
  rw [setCol_header f c vs hne]
  unfold Frame.setCol at hr'
  rw [if_neg (setCol_guard_false f hne)] at hr'
  cases hfi : findIdxO (fun x => x = c) f.header <;> rw [hfi] at hr' <;>
    simp only [] at hr'
  case none =>
    rw [List.getElem?_zipWith] at hr'
    cases hrow : f.rows[i]? with
    | none => rw [hrow] at hr'; simp at hr'
    | some r =>
      rw [hrow] at hr'
      cases hal : (alignTo f.rows.length vs)[i]? with
      | none => rw [hal] at hr'; simp at hr'
      | some v =>
        rw [hal] at hr'
        simp only [Option.some_inj] at hr'
        subst hr'
        simp [hwf i r hrow, hfi]
  case some j =>
    rw [List.getElem?_zipWith] at hr'
    cases hrow : f.rows[i]? with
    | none => rw [hrow] at hr'; simp at hr'
    | some r =>
      rw [hrow] at hr'
      cases hal : (alignTo f.rows.length vs)[i]? with
      | none => rw [hal] at hr'; simp at hr'
      | some v =>
        rw [hal] at hr'
        simp only [Option.some_inj] at hr'
        subst hr'
        simp [hwf i r hrow, hfi]

theorem setCol_rows_some (f : Frame) (c : ColId) (vs : List Value)
    (hne : f.header ≠ []) (j : Nat)
    (hfi : findIdxO (fun x => x = c) f.header = some j) :
    (f.setCol c vs).rows
      = List.zipWith (fun r v => r.set j v) f.rows (alignTo f.rows.length vs) := by
  unfold Frame.setCol
  rw [if_neg (setCol_guard_false f hne)]
  simp only [hfi]

theorem setCol_rows_none (f : Frame) (c : ColId) (vs : List Value)
    (hne : f.header ≠ [])
    (hfi : findIdxO (fun x => x = c) f.header = none) :
    (f.setCol c vs).rows
      = List.zipWith (fun r v => r ++ [v]) f.rows (alignTo f.rows.length vs) := by
  unfold Frame.setCol
  rw [if_neg (setCol_guard_false f hne)]
  simp only [hfi]

theorem zipWith_getElem?_both {α β γ : Type} (g : α → β → γ) (as : List α)
    (bs : List β) (i : Nat) (a : α) (b : β) (ha : as[i]? = some a)
    (hb : bs[i]? = some b) : (List.zipWith g as bs)[i]? = some (g a b) := by
  rw [List.getElem?_zipWith, ha, hb]

theorem setCol_getColVals_self (f : Frame) (c : ColId) (vs : List Value)
    (hne : f.header ≠ []) (hwf : WfFrame f) :
    (f.setCol c vs).getColVals c = some (alignTo f.rows.length vs) := by
  cases hfi : findIdxO (fun x => x = c) f.header with
  | some j =>
    have hhdr : (f.setCol c vs).header = f.header := by
      rw [setCol_header f c vs hne, hfi]
    have hrows := setCol_rows_some f c vs hne j hfi
    have hj := findIdxO_lt _ _ _ hfi
    unfold Frame.getColVals Frame.colIdx
    rw [hhdr, hfi]
    simp only [Option.map_some', Option.some_inj]
    unfold Frame.colValues
    rw [hrows]
    apply List.ext_getElem?
    intro i
    by_cases hi : i < f.rows.length
    · have hrow : f.rows[i]? = some f.rows[i] := List.getElem?_eq_getElem hi
      rw [List.getElem?_map,
        zipWith_getElem?_both _ _ _ _ _ _ hrow (alignTo_getElem? _ _ _ hi),
        alignTo_getElem? _ _ _ hi]
      simp only [Option.map_some']
      have hlen : j < (f.rows[i]).length := by
        rw [hwf i f.rows[i] hrow]
        exact hj
      rw [List.get?_eq_getElem?, List.getElem?_set_self hlen]
      rfl
    · have hge : f.rows.length ≤ i := Nat.le_of_not_lt hi
      rw [List.getElem?_eq_none, List.getElem?_eq_none]
      · rw [alignTo_length]; exact hge
      · rw [List.length_map, List.length_zipWith, alignTo_length, Nat.min_self]
        exact hge
  | none =>
    have hhdr : (f.setCol c vs).header = f.header ++ [c] := by
      rw [setCol_header f c vs hne, hfi]
    have hrows := setCol_rows_none f c vs hne hfi
    have hidx : findIdxO (fun x => x = c) (f.header ++ [c]) = some f.header.length := by
      rw [findIdxO_append_sing]
      rw [hfi]
      simp
    unfold Frame.getColVals Frame.colIdx
    rw [hhdr, hidx]
    simp only [Option.map_some', Option.some_inj]
    unfold Frame.colValues
    rw [hrows]
    apply List.ext_getElem?
    intro i
    by_cases hi : i < f.rows.length
    · have hrow : f.rows[i]? = some f.rows[i] := List.getElem?_eq_getElem hi
      rw [List.getElem?_map,
        zipWith_getElem?_both _ _ _ _ _ _ hrow (alignTo_getElem? _ _ _ hi),
        alignTo_getElem? _ _ _ hi]
      simp only [Option.map_some']
      have hlen : (f.rows[i]).length = f.header.length := hwf i f.rows[i] hrow
      rw [List.get?_eq_getElem?, ← hlen, List.getElem?_concat_length]
      rfl
    · have hge : f.rows.length ≤ i := Nat.le_of_not_lt hi
      rw [List.getElem?_eq_none, List.getElem?_eq_none]
      · rw [alignTo_length]; exact hge
      · rw [List.length_map, List.length_zipWith, alignTo_length, Nat.min_self]
        exact hge

theorem setCol_getColVals_ne (f : Frame) (c c' : ColId) (vs : List Value)
    (hne : f.header ≠ []) (hwf : WfFrame f) (hcc : c' ≠ c) :
    (f.setCol c vs).getColVals c' = f.getColVals c' := by
  cases hfi : findIdxO (fun x => x = c) f.header with
  | some j =>
    have hhdr : (f.setCol c vs).header = f.header := by
      rw [setCol_header f c vs hne, hfi]
    have hrows := setCol_rows_some f c vs hne j hfi
    unfold Frame.getColVals Frame.colIdx
    rw [hhdr]
    cases hfi2 : findIdxO (fun x => x = c') f.header with
    | none => rfl
    | some j2 =>
      have hj2ne : j2 ≠ j := by
        intro heq
        subst heq
        obtain ⟨a, ha, hpa⟩ := findIdxO_get _ _ _ hfi
        obtain ⟨a2, ha2, hpa2⟩ := findIdxO_get _ _ _ hfi2
        rw [ha] at ha2
        cases ha2
        simp only [decide_eq_true_eq] at hpa hpa2
        exact hcc (hpa2 ▸ hpa ▸ rfl)
      simp only [Option.map_some', Option.some_inj]
      unfold Frame.colValues
      rw [hrows]
      apply List.ext_getElem?
      intro i
      by_cases hi : i < f.rows.length
      · have hrow : f.rows[i]? = some f.rows[i] := List.getElem?_eq_getElem hi
        rw [List.getElem?_map, List.getElem?_map, hrow,
          zipWith_getElem?_both _ _ _ _ _ _ hrow (alignTo_getElem? _ _ _ hi)]
        simp only [Option.map_some']
        rw [List.get?_eq_getElem?, List.get?_eq_getElem?,
          List.getElem?_set_ne (Ne.symm hj2ne)]
        rw [List.get?_eq_getElem?]
      · have hge : f.rows.length ≤ i := Nat.le_of_not_lt hi
        rw [List.getElem?_eq_none, List.getElem?_eq_none]
        · rw [List.length_map]; exact hge
        · rw [List.length_map, List.length_zipWith, alignTo_length, Nat.min_self]
          exact hge
  | none =>
    have hhdr : (f.setCol c vs).header = f.header ++ [c] := by
      rw [setCol_header f c vs hne, hfi]
    have hrows := setCol_rows_none f c vs hne hfi
    have hpc : (fun x => (x = c' : Bool)) c = false := by
      simp only [decide_eq_false_iff_not]
      exact fun hh => hcc (Eq.symm hh)
    unfold Frame.getColVals Frame.colIdx
    rw [hhdr, findIdxO_append_sing]
    cases hfi2 : findIdxO (fun x => x = c') f.header with
    | none =>
      simp only [hpc]
      rfl
    | some j2 =>
      simp only []
      have hj2 := findIdxO_lt _ _ _ hfi2
      simp only [Option.map_some', Option.some_inj]
      unfold Frame.colValues
      rw [hrows]
      apply List.ext_getElem?
      intro i
      by_cases hi : i < f.rows.length
      · have hrow : f.rows[i]? = some f.rows[i] := List.getElem?_eq_getElem hi
        rw [List.getElem?_map, List.getElem?_map, hrow,
          zipWith_getElem?_both _ _ _ _ _ _ hrow (alignTo_getElem? _ _ _ hi)]
        simp only [Option.map_some']
        have hlen : j2 < (f.rows[i]).length := by
          rw [hwf i f.rows[i] hrow]
          exact hj2
        rw [List.get?_eq_getElem?, List.get?_eq_getElem?,
          List.getElem?_append_left hlen]
        rw [List.get?_eq_getElem?]
      · have hge : f.rows.length ≤ i := Nat.le_of_not_lt hi
        rw [List.getElem?_eq_none, List.getElem?_eq_none]
        · rw [List.length_map]; exact hge
        · rw [List.length_map, List.length_zipWith, alignTo_length, Nat.min_self]
          exact hge

theorem find?_eq_filter_head? {α : Type} (p : α → Bool) (l : List α) :
    l.find? p = (l.filter p).head? := by
  induction l with
  | nil => rfl
  | cons a l ih =>
    cases hp : p a
    · rw [List.find?_cons_of_neg _ (by simp [hp]),
        List.filter_cons_of_neg (by simp [hp]), ih]
    · rw [List.find?_cons_of_pos _ hp, List.filter_cons_of_pos hp]
      rfl

theorem broadcastLen_eq_cols_head (data : List (ColId × EvalResult)) :
    (match (data.filter (fun cv => isSeries cv.2)
        ++ data.filter (fun cv => ! isSeries cv.2)).head? with
      | some (_, .series _ vs) => vs.length
      | _ => 1) = broadcastLen data := by
  unfold broadcastLen
  rw [find?_eq_filter_head?, List.head?_append]
  cases hh : (data.filter (fun cv => isSeries cv.2)).head? with
  | some cv =>
    obtain ⟨ys, hys⟩ := List.head?_eq_some_iff.mp hh
    have hmem : cv ∈ data.filter (fun cv => isSeries cv.2) := by
      rw [hys]; exact List.mem_cons_self cv ys
    have hser : isSeries cv.2 = true := (List.mem_filter.mp hmem).2
    obtain ⟨c1, v1⟩ := cv
    cases v1 with
    | scalar x => simp [isSeries] at hser
    | series nm vs => simp [Option.or]
  | none =>
    cases hh2 : (data.filter (fun cv => ! isSeries cv.2)).head? with
    | none => simp [Option.or]
    | some cv =>
      obtain ⟨ys, hys⟩ := List.head?_eq_some_iff.mp hh2
      have hmem : cv ∈ data.filter (fun cv => ! isSeries cv.2) := by
        rw [hys]; exact List.mem_cons_self cv ys
      have hser : (! isSeries cv.2) = true := (List.mem_filter.mp hmem).2
      obtain ⟨c1, v1⟩ := cv
      cases v1 with
      | scalar x => simp [Option.or]
      | series nm vs => simp [isSeries] at hser

theorem findIdxO_isSome_of_mem {α : Type} [DecidableEq α] (c : α) :
    ∀ cs : List α, c ∈ cs → ∃ j, findIdxO (fun x => x = c) cs = some j := by
  intro cs
  induction cs with
  | nil => intro h; exact absurd h (List.not_mem_nil c)
  | cons a l ih =>
    intro h
    by_cases ha : a = c
    · exact ⟨0, by simp [findIdxO, ha]⟩
    · have hl : c ∈ l := by
        rcases List.mem_cons.mp h with h1 | h1
        · exact absurd (Eq.symm h1) ha
        · exact h1
      obtain ⟨j, hj⟩ := ih hl
      exact ⟨j + 1, by simp [findIdxO, ha, hj]⟩

theorem selectCols_header (f : Frame) (cs : List ColId) :
    (f.selectCols cs).header = cs := rfl

theorem selectCols_rows_length (f : Frame) (cs : List ColId) :
    (f.selectCols cs).rows.length = f.rows.length := by
  simp [Frame.selectCols]

theorem getColVals_selectCols (f : Frame) (cs : List ColId) (c : ColId)
    (vsc : List Value) (hmem : c ∈ cs) (hcol : f.getColVals c = some vsc) :
    (f.selectCols cs).getColVals c = some vsc := by
  obtain ⟨j, hj⟩ := findIdxO_isSome_of_mem c cs hmem
  obtain ⟨a, haj, hpa⟩ := findIdxO_get _ _ _ hj
  have hac : a = c := by simpa using hpa
  rw [hac] at haj
  obtain ⟨jf, hjf, hvals⟩ : ∃ jf, f.colIdx c = some jf ∧ f.colValues jf = vsc := by
    unfold Frame.getColVals at hcol
    cases hfx : f.colIdx c with
    | none => rw [hfx] at hcol; simp at hcol
    | some jf =>
      rw [hfx] at hcol
      simp only [Option.map_some', Option.some_inj] at hcol
      exact ⟨jf, rfl, hcol⟩
  have hidx : (f.selectCols cs).colIdx c = some j := by
    unfold Frame.selectCols Frame.colIdx
    exact hj
  unfold Frame.getColVals
  rw [hidx]
  simp only [Option.map_some', Option.some_inj]
  rw [← hvals]
  unfold Frame.colValues Frame.selectCols
  apply List.ext_getElem?
  intro i
  by_cases hi : i < f.rows.length
  · have hrow : f.rows[i]? = some f.rows[i] := List.getElem?_eq_getElem hi
    simp only [List.getElem?_map, hrow, Option.map_some', Option.some_inj]
    rw [List.get?_eq_getElem?, List.getElem?_map]
    rw [List.get?_eq_getElem? cs j] at haj
    rw [List.getElem?_map, haj]
    simp only [Option.map_some', hjf, Option.getD_some]
  · have hge : f.rows.length ≤ i := Nat.le_of_not_lt hi
    rw [List.getElem?_eq_none, List.getElem?_eq_none]
    · rw [List.length_map]; exact hge
    · rw [List.length_map, List.length_map]; exact hge

theorem foldl_setCol_char (n : Nat) :
    ∀ (cols : List (ColId × EvalResult)) (fr : Frame),
      WfFrame fr → fr.header ≠ [] → fr.rows.length = n →
      WfFrame (cols.foldl (fun fr cv => fr.setCol cv.1 (prepVals n cv.2)) fr)
      ∧ (cols.foldl (fun fr cv => fr.setCol cv.1 (prepVals n cv.2)) fr).header ≠ []
      ∧ (cols.foldl (fun fr cv => fr.setCol cv.1 (prepVals n cv.2)) fr).rows.length = n
      ∧ (∀ c, c ∉ cols.map Prod.fst →
          (cols.foldl (fun fr cv => fr.setCol cv.1 (prepVals n cv.2)) fr).getColVals c
            = fr.getColVals c)
      ∧ ((cols.map Prod.fst).Nodup → ∀ cv ∈ cols,
          (cols.foldl (fun fr cv => fr.setCol cv.1 (prepVals n cv.2)) fr).getColVals cv.1
            = some (alignTo n (prepVals n cv.2))) := by
  intro cols
  induction cols with
  | nil =>
    intro fr hwf hne hlen
    exact ⟨hwf, hne, hlen, fun c _ => rfl,
      fun _ cv hcv => absurd hcv (List.not_mem_nil cv)⟩
  | cons cv0 cols ih =>
    intro fr hwf hne hlen
    simp only [List.foldl_cons]
    have hwf1 : WfFrame (fr.setCol cv0.1 (prepVals n cv0.2)) :=
      setCol_wf _ _ _ hne hwf
    have hne1 := setCol_header_ne_nil fr cv0.1 (prepVals n cv0.2) hne
    have hlen1 : (fr.setCol cv0.1 (prepVals n cv0.2)).rows.length = n := by
      rw [setCol_rows_length _ _ _ hne]
      exact hlen
    obtain ⟨ihwf, ihne, ihlen, ihother, ihself⟩ :=
      ih (fr.setCol cv0.1 (prepVals n cv0.2)) hwf1 hne1 hlen1
    refine ⟨ihwf, ihne, ihlen, ?_, ?_⟩
    · intro c hc
      have hc0 : c ≠ cv0.1 := fun hh => hc (by simp [hh])
      have hcrest : c ∉ cols.map Prod.fst := fun hm => hc (by simp [hm])
      rw [ihother c hcrest]
      exact setCol_getColVals_ne fr cv0.1 c _ hne hwf hc0
    · intro hnd cv hcv
      have hnd2 : (cols.map Prod.fst).Nodup := by
        simp only [List.map_cons, List.nodup_cons] at hnd
        exact hnd.2
      rcases List.mem_cons.mp hcv with hcv0 | hcvrest
      · subst hcv0
        have hnotin : cv.1 ∉ cols.map Prod.fst := by
          simp only [List.map_cons, List.nodup_cons] at hnd
          exact hnd.1
        rw [ihother cv.1 hnotin]
        rw [setCol_getColVals_self fr cv.1 _ hne hwf, hlen]
      · exact ihself hnd2 cv hcvrest

theorem create_frame_spec (data : List (ColId × EvalResult))
    (hne : data ≠ []) (hnd : (data.map Prod.fst).Nodup) :
    (create_frame data).header = data.map Prod.fst
    ∧ (create_frame data).rows.length = broadcastLen data
    ∧ ∀ cv ∈ data, (create_frame data).getColVals cv.1
        = some (alignTo (broadcastLen data) (prepVals (broadcastLen data) cv.2)) := by
  have hempty : ¬(data.isEmpty = true) := by
    simp only [List.isEmpty_iff]
    exact hne
  have hn := broadcastLen_eq_cols_head data
  have hcf : create_frame data
      = (((data.filter (fun cv => isSeries cv.2)
          ++ data.filter (fun cv => ! isSeries cv.2)).foldl
            (fun fr cv => fr.setCol cv.1 (prepVals (broadcastLen data) cv.2))
            emptyFrame).selectCols (data.map (fun cv => cv.1))) := by
    unfold create_frame
    rw [if_neg hempty]
    simp only [hn]
  have hperm : (data.filter (fun cv => isSeries cv.2)
      ++ data.filter (fun cv => ! isSeries cv.2)).Perm data :=
    List.filter_append_perm _ data
  have hcolsne : (data.filter (fun cv => isSeries cv.2)
      ++ data.filter (fun cv => ! isSeries cv.2)) ≠ [] := by
    intro hnil
    apply hne
    have hl := hperm.length_eq
    rw [hnil] at hl
    exact List.length_eq_zero.mp hl.symm
  obtain ⟨c0, rest, hcols⟩ : ∃ c0 rest, (data.filter (fun cv => isSeries cv.2)
      ++ data.filter (fun cv => ! isSeries cv.2)) = c0 :: rest := by
    cases hc : (data.filter (fun cv => isSeries cv.2)
        ++ data.filter (fun cv => ! isSeries cv.2)) with
    | nil => exact absurd hc hcolsne
    | cons c0 rest => exact ⟨c0, rest, rfl⟩
  have hndcols : (((data.filter (fun cv => isSeries cv.2)
      ++ data.filter (fun cv => ! isSeries cv.2)).map Prod.fst)).Nodup :=
    ((hperm.map Prod.fst).symm).nodup hnd
  rw [hcols] at hndcols
  simp only [List.map_cons, List.nodup_cons] at hndcols
  obtain ⟨hnotin, hndrest⟩ := hndcols
  have hn0 : (prepVals (broadcastLen data) c0.2).length = broadcastLen data := by
    rw [hcols] at hn
    obtain ⟨c0f, c0v⟩ := c0
    cases c0v with
    | series nm vs =>
      simp only [List.head?_cons] at hn
      simpa [prepVals] using hn
    | scalar x => simp [prepVals]
  have hfr0 : (emptyFrame.setCol c0.1 (prepVals (broadcastLen data) c0.2))
      = ⟨[c0.1], (prepVals (broadcastLen data) c0.2).map (fun v => [v])⟩ := rfl
  have hwf0 : WfFrame (⟨[c0.1],
      (prepVals (broadcastLen data) c0.2).map (fun v => [v])⟩ : Frame) := by
    intro i r hr
    simp only [List.getElem?_map] at hr
    cases hv : (prepVals (broadcastLen data) c0.2)[i]? with
    | none => rw [hv] at hr; simp at hr
    | some v =>
      rw [hv] at hr
      simp only [Option.map_some', Option.some_inj] at hr
      subst hr
      rfl
  have hne0 : (([c0.1] : List ColId)) ≠ [] := by simp
  have hlen0 : ((⟨[c0.1], (prepVals (broadcastLen data) c0.2).map
      (fun v => [v])⟩ : Frame)).rows.length = broadcastLen data := by
    show ((prepVals (broadcastLen data) c0.2).map (fun v => [v])).length = _
    rw [List.length_map]
    exact hn0
  obtain ⟨ihwf, ihne, ihlen, ihother, ihself⟩ :=
    foldl_setCol_char (broadcastLen data) rest
      ⟨[c0.1], (prepVals (broadcastLen data) c0.2).map (fun v => [v])⟩
      hwf0 hne0 hlen0
  have hfold : (data.filter (fun cv => isSeries cv.2)
      ++ data.filter (fun cv => ! isSeries cv.2)).foldl
        (fun fr cv => fr.setCol cv.1 (prepVals (broadcastLen data) cv.2)) emptyFrame
      = rest.foldl (fun fr cv => fr.setCol cv.1 (prepVals (broadcastLen data) cv.2))
          ⟨[c0.1], (prepVals (broadcastLen data) c0.2).map (fun v => [v])⟩ := by
    rw [hcols, List.foldl_cons, hfr0]
  refine ⟨?_, ?_, ?_⟩
  · rw [hcf, selectCols_header]
  · rw [hcf, selectCols_rows_length, hfold, ihlen]
  · intro cv hcv
    rw [hcf]
    have hmemname : cv.1 ∈ data.map (fun cv => cv.1) := List.mem_map_of_mem _ hcv
    have hcvcols : cv ∈ (data.filter (fun cv => isSeries cv.2)
        ++ data.filter (fun cv => ! isSeries cv.2)) := hperm.mem_iff.mpr hcv
    rw [hcols] at hcvcols
    have hfoldcol : ((data.filter (fun cv => isSeries cv.2)
        ++ data.filter (fun cv => ! isSeries cv.2)).foldl
          (fun fr cv => fr.setCol cv.1 (prepVals (broadcastLen data) cv.2))
          emptyFrame).getColVals cv.1
        = some (alignTo (broadcastLen data) (prepVals (broadcastLen data) cv.2)) := by
      rw [hfold]
      rcases List.mem_cons.mp hcvcols with hcv0 | hcvrest
      · subst hcv0
        have hfr0col : ((⟨[cv.1], (prepVals (broadcastLen data) cv.2).map
            (fun v => [v])⟩ : Frame)).getColVals cv.1
            = some (prepVals (broadcastLen data) cv.2) := by
          unfold Frame.getColVals Frame.colIdx Frame.colValues
          simp only [findIdxO, List.map_map]
          have hfun : ((fun (r : List Value) => r[0]?.getD Value.nan)
              ∘ fun v : Value => [v]) = id := by
            funext v
            rfl
          simp [hfun]
        rw [ihother cv.1 hnotin, hfr0col]
        have halign : alignTo (broadcastLen data) (prepVals (broadcastLen data) cv.2)
            = prepVals (broadcastLen data) cv.2 := by
          have hh := alignTo_eq_self (prepVals (broadcastLen data) cv.2)
          rwa [hn0] at hh
        rw [halign]
      · exact ihself hndrest cv hcvrest
    exact getColVals_selectCols _ _ _ _ hmemname hfoldcol

/-- C6 counterexample: executing `SELECT 'x' IN 'x', name, 5 FROM
people` against a three-row table produces a ONE-row frame — the scalar
`5` is broadcast to the length of the first Series (the one-element
result of the IN test), not to the length of the longest Series (the
three-row `name` column). -/
theorem c6_counterexample_broadcast_follows_first_series :
    Statement.execute noSub c6Fix.1 c6Fix.2 c6Select = (.ok (some c6Result), c6Fix.1)
    ∧ c6Result.rows.length = 1
    ∧ Term.evaluate nameFrame (.column (ColId.str "name"))
      = .ok (.series (some (ColId.str "name"))
          [Value.str "Jeff", Value.str "Isabel", Value.str "Bob"]) :=
  ⟨rfl, rfl, rfl⟩

/-- C6 (amended): when a Select statement executes, every selected
expression that evaluates to a scalar is broadcast to the row count of
the FIRST Series among the selected results (one row when no result is
a Series); Series results are aligned (truncated or NaN-padded) to that
same length, and the resulting columns appear in declared expression
order. -/
theorem c6_select_broadcasts_scalars_to_first_series_length
    (sub : SubRunner) (h : Heap) (ctx : Context) (table : String)
    (es : List SelExpr) (df : Frame) (data : List (ColId × EvalResult))
    (hdf : Context.getFrame h ctx table = some df)
    (hcollect : selectCollect df [] es = .ok data)
    (hne : data ≠ []) (hnd : (data.map Prod.fst).Nodup) :
    Statement.execute sub h ctx (.select table es)
      = (.ok (some (create_frame data)), h)
    ∧ (create_frame data).header = data.map Prod.fst
    ∧ (create_frame data).rows.length = broadcastLen data
    ∧ (∀ cv ∈ data, ∀ x, cv.2 = .scalar x →
        (create_frame data).getColVals cv.1
          = some (List.replicate (broadcastLen data) x))
    ∧ (∀ cv ∈ data, ∀ nm vs, cv.2 = .series nm vs →
        (create_frame data).getColVals cv.1
          = some (alignTo (broadcastLen data) vs)) := by
  obtain ⟨hhdr, hlen, hcols⟩ := create_frame_spec data hne hnd
  refine ⟨?_, hhdr, hlen, ?_, ?_⟩
  · simp [Statement.execute, hdf, hcollect]
  · intro cv hcv x hx
    have hcv2 := hcols cv hcv
    rw [hx] at hcv2
    rw [hcv2]
    have hrep : alignTo (broadcastLen data) (List.replicate (broadcastLen data) x)
        = List.replicate (broadcastLen data) x := by
      have hh := alignTo_eq_self (List.replicate (broadcastLen data) x)
      rwa [List.length_replicate] at hh
    simp [prepVals, hrep]
  · intro cv hcv nm vs hx
    have hcv2 := hcols cv hcv
    rw [hx] at hcv2
    rw [hcv2]
    simp [prepVals]

/-- Witness for the amended C6 at the concrete fixture: the collected
data of `c6Select`, whose scalar `5` column comes out as a single-row
column because the first Series result has one element. -/
theorem c6_select_broadcasts_scalars_to_first_series_length_witness :
    Statement.execute noSub c6Fix.1 c6Fix.2
        (.select "people"
          [ .expr ⟨.inTerm (.literal (.str "x")) (.literal (.str "x")), none⟩
          , .expr ⟨.column (.str "name"), none⟩
          , .expr ⟨.literal (.int 5), none⟩ ])
      = (.ok (some (create_frame
          [ (ColId.str "_0", .series none [Value.bool true])
          , (ColId.str "name", .series (some (ColId.str "name"))
              [Value.str "Jeff", Value.str "Isabel", Value.str "Bob"])
          , (ColId.str "_2", .scalar (Value.int 5)) ])), c6Fix.1)
    ∧ (create_frame
          [ (ColId.str "_0", .series none [Value.bool true])
          , (ColId.str "name", .series (some (ColId.str "name"))
              [Value.str "Jeff", Value.str "Isabel", Value.str "Bob"])
          , (ColId.str "_2", .scalar (Value.int 5)) ]).getColVals (ColId.str "_2")
      = some (List.replicate (broadcastLen
          [ (ColId.str "_0", .series none [Value.bool true])
          , (ColId.str "name", .series (some (ColId.str "name"))
              [Value.str "Jeff", Value.str "Isabel", Value.str "Bob"])
          , (ColId.str "_2", .scalar (Value.int 5)) ]) (Value.int 5)) :=
  ⟨(c6_select_broadcasts_scalars_to_first_series_length noSub c6Fix.1 c6Fix.2 "people"
      [ .expr ⟨.inTerm (.literal (.str "x")) (.literal (.str "x")), none⟩
      , .expr ⟨.column (.str "name"), none⟩
      , .expr ⟨.literal (.int 5), none⟩ ] nameFrame
      [ (ColId.str "_0", .series none [Value.bool true])
      , (ColId.str "name", .series (some (ColId.str "name"))
          [Value.str "Jeff", Value.str "Isabel", Value.str "Bob"])
      , (ColId.str "_2", .scalar (Value.int 5)) ]
      rfl rfl (by simp) (by decide)).1,
   (c6_select_broadcasts_scalars_to_first_series_length noSub c6Fix.1 c6Fix.2 "people"
      [ .expr ⟨.inTerm (.literal (.str "x")) (.literal (.str "x")), none⟩
      , .expr ⟨.column (.str "name"), none⟩
      , .expr ⟨.literal (.int 5), none⟩ ] nameFrame
      [ (ColId.str "_0", .series none [Value.bool true])
      , (ColId.str "name", .series (some (ColId.str "name"))
          [Value.str "Jeff", Value.str "Isabel", Value.str "Bob"])
      , (ColId.str "_2", .scalar (Value.int 5)) ]
      rfl rfl (by simp) (by decide)).2.2.2.1
     (ColId.str "_2", .scalar (Value.int 5))
     (List.Mem.tail _ (List.Mem.tail _ (List.Mem.head _)))
     (Value.int 5) rfl⟩

end DJ
